import Mathlib

set_option autoImplicit false
set_option maxRecDepth 40000
set_option exponentiation.threshold 4000

/-!
Shallow embedding of the LLM-quiz-solver repository.

The answer parser (`quiz_solver.py`, `QuizSolver.parse_answer`) works on Python
strings; we model strings as `List Char` (ASCII fragment: the solver's keyword
tests, the number pattern and the URL patterns only ever inspect ASCII).
CPython `float(s)` is modelled in two faithful stages: the decimal-literal
grammar (`decParts`; failure = ValueError) and correctly-rounded conversion to
IEEE-754 binary64 (`roundDec`: round half to even, gradual underflow, and
silent overflow to infinity). `int()` of a float is exact truncation toward
zero, raising OverflowError — not ValueError — on an infinity (`pyIntFloat`);
that exception propagates out of `parse_answer` past its `except ValueError`.
-/

/-- Python whitespace test for `str.strip` (ASCII whitespace characters). -/
def pyIsSpace (c : Char) : Bool :=
  c == ' ' || c == '\t' || c == '\n' || c == '\r' || c == Char.ofNat 11 || c == Char.ofNat 12

/-- Python `str.lower` (ASCII). -/
def pyLower (l : List Char) : List Char := l.map Char.toLower

/-- Python `str.strip()`: drop whitespace from both ends. -/
def pyStrip (l : List Char) : List Char :=
  ((l.dropWhile pyIsSpace).reverse.dropWhile pyIsSpace).reverse

/-- `isPre pat l`: `pat` is a prefix of `l` (Python `str.startswith`). -/
def isPre : List Char → List Char → Bool
  | [], _ => true
  | _ :: _, [] => false
  | a :: as, b :: bs => a == b && isPre as bs

/-- `hasSub pat l`: Python substring containment `pat in l`. -/
def hasSub (pat : List Char) : List Char → Bool
  | [] => isPre pat []
  | c :: cs => isPre pat (c :: cs) || hasSub pat cs

/-- The boolean-keyword test of `parse_answer` (quiz_solver.py line 105):
`any(word in instruction.lower() for word in ["true", "false", "yes", "no"])`. -/
def boolKeywordHit (instruction : List Char) : Bool :=
  hasSub ("true".data) (pyLower instruction) ||
  hasSub ("false".data) (pyLower instruction) ||
  hasSub ("yes".data) (pyLower instruction) ||
  hasSub ("no".data) (pyLower instruction)

/-- The numeric-keyword test of `parse_answer` (quiz_solver.py line 109). -/
def numKeywordHit (instruction : List Char) : Bool :=
  hasSub ("sum".data) (pyLower instruction) ||
  hasSub ("total".data) (pyLower instruction) ||
  hasSub ("count".data) (pyLower instruction) ||
  hasSub ("number".data) (pyLower instruction) ||
  hasSub ("calculate".data) (pyLower instruction) ||
  hasSub ("value".data) (pyLower instruction)

/-- Split a leading run of decimal digits from the rest. -/
def spanDigits : List Char → List Char × List Char
  | [] => ([], [])
  | c :: cs =>
    if c.isDigit then (c :: (spanDigits cs).1, (spanDigits cs).2)
    else ([], c :: cs)

theorem spanDigits_len (l : List Char) : (spanDigits l).2.length ≤ l.length := by
  induction l with
  | nil => simp [spanDigits]
  | cons c cs ih =>
    by_cases h : c.isDigit
    · simp [spanDigits, h]
      omega
    · simp [spanDigits, h]

theorem spanDigits_fst_digit (l : List Char) : ∀ x ∈ (spanDigits l).1, x.isDigit = true := by
  induction l with
  | nil => simp [spanDigits]
  | cons c cs ih =>
    by_cases h : c.isDigit
    · simpa [spanDigits, h] using ih
    · simp [spanDigits, h]

theorem spanDigits_snd_head (l : List Char) :
    ∀ y ys, (spanDigits l).2 = y :: ys → y.isDigit = false := by
  induction l with
  | nil => simp [spanDigits]
  | cons c cs ih =>
    by_cases h : c.isDigit
    · simpa [spanDigits, h] using ih
    · intro y ys hy
      simp [spanDigits, h] at hy
      rw [← hy.1]
      simpa using h

/-- `spanDigits` on an explicit digit-run followed by a non-digit remainder. -/
theorem spanDigits_concat (ds rest : List Char) (hds : ∀ x ∈ ds, x.isDigit = true)
    (hrest : rest = [] ∨ ∃ y ys, rest = y :: ys ∧ y.isDigit = false) :
    spanDigits (ds ++ rest) = (ds, rest) := by
  induction ds with
  | nil =>
    rcases hrest with h | ⟨y, ys, hy, hyd⟩
    · simp [h, spanDigits]
    · simp [hy, spanDigits, hyd]
  | cons d ds ih =>
    have hd : d.isDigit = true := hds d (by simp)
    have := ih (fun x hx => hds x (by simp [hx]))
    simp [spanDigits, hd, this]

/-- One match of the Python pattern `-?\d+\.?\d*` made to start at the given digit:
maximal digit run, optional dot, maximal digit run. Returns (token, rest). -/
def grabNumCore (c : Char) (cs : List Char) : List Char × List Char :=
  match (spanDigits cs).2 with
  | '.' :: rest => (c :: (spanDigits cs).1 ++ '.' :: (spanDigits rest).1, (spanDigits rest).2)
  | _ => (c :: (spanDigits cs).1, (spanDigits cs).2)

/-- One leftmost match of `-?\d+\.?\d*` starting exactly at `c :: cs`
(`none` when no match starts here). -/
def grabNum (c : Char) (cs : List Char) : Option (List Char × List Char) :=
  if c.isDigit then some (grabNumCore c cs)
  else if c == '-' then
    match cs with
    | [] => none
    | d :: cs2 =>
      if d.isDigit then some ('-' :: (grabNumCore d cs2).1, (grabNumCore d cs2).2)
      else none
  else none

theorem grabNumCore_len (c : Char) (cs : List Char) :
    (grabNumCore c cs).2.length ≤ cs.length := by
  unfold grabNumCore
  split
  · next rest heq =>
    have h1 := spanDigits_len cs
    have h2 := spanDigits_len rest
    rw [heq] at h1
    simp at h1 ⊢
    omega
  · exact spanDigits_len cs

theorem grabNum_len (c : Char) (cs t r : List Char) (h : grabNum c cs = some (t, r)) :
    r.length ≤ cs.length := by
  unfold grabNum at h
  split at h
  · have h2 : grabNumCore c cs = (t, r) := Option.some.inj h
    have h3 := grabNumCore_len c cs
    rw [h2] at h3
    exact h3
  · split at h
    · split at h
      · exact absurd h (by simp)
      · next d cs2 =>
        split at h
        · have h2 : (('-' :: (grabNumCore d cs2).1, (grabNumCore d cs2).2) : List Char × List Char)
              = (t, r) := Option.some.inj h
          have h3 := grabNumCore_len d cs2
          have hr : r = (grabNumCore d cs2).2 := by
            have h4 := congrArg Prod.snd h2
            simpa using h4.symm
          rw [hr]
          simp only [List.length_cons]
          omega
        · exact absurd h (by simp)
    · exact absurd h (by simp)

/-- All matches of `-?\d+\.?\d*` in scan order, with recursion fuel
(Python `re.findall`: earliest match, then continue after it). -/
def findNumsF : Nat → List Char → List (List Char)
  | 0, _ => []
  | _ + 1, [] => []
  | f + 1, c :: cs =>
    match grabNum c cs with
    | some (t, r) => t :: findNumsF f r
    | none => findNumsF f cs

/-- `re.findall(r'-?\d+\.?\d*', ·)` (quiz_solver.py line 110). Fuel
`l.length` always suffices: every step consumes at least one character. -/
def findNums (l : List Char) : List (List Char) := findNumsF l.length l

/-- The fuel in `findNums` is irrelevant once it covers the input length. -/
theorem findNumsF_fuel : ∀ (f g : Nat) (l : List Char), l.length ≤ f → l.length ≤ g →
    findNumsF f l = findNumsF g l := by
  intro f
  induction f with
  | zero =>
    intro g l hf _
    have : l = [] := by cases l <;> simp_all
    subst this
    cases g <;> rfl
  | succ f ih =>
    intro g l hf hg
    cases l with
    | nil => cases g <;> rfl
    | cons c cs =>
      cases g with
      | zero => simp at hg
      | succ g =>
        simp only [findNumsF]
        simp only [List.length_cons] at hf hg
        cases hgr : grabNum c cs with
        | none =>
          exact ih g cs (by omega) (by omega)
        | some p =>
          obtain ⟨t, r⟩ := p
          have hr := grabNum_len c cs t r hgr
          show t :: findNumsF f r = t :: findNumsF g r
          rw [ih g r (by omega) (by omega)]

/-- Every token produced by the scanner comes from `grabNum`. -/
theorem findNumsF_mem : ∀ (f : Nat) (l t : List Char), t ∈ findNumsF f l →
    ∃ c cs r, grabNum c cs = some (t, r) := by
  intro f
  induction f with
  | zero => intro l t h; simp [findNumsF] at h
  | succ f ih =>
    intro l t h
    cases l with
    | nil => simp [findNumsF] at h
    | cons c cs =>
      simp only [findNumsF] at h
      cases hgr : grabNum c cs with
      | none =>
        rw [hgr] at h
        exact ih cs t h
      | some p =>
        obtain ⟨t2, r⟩ := p
        rw [hgr] at h
        have h2 : t ∈ t2 :: findNumsF f r := h
        rcases List.mem_cons.mp h2 with h3 | h3
        · exact ⟨c, cs, r, by rw [hgr, h3]⟩
        · exact ih r t h3

/-- Numeric value of a decimal digit string. -/
def natDigits (l : List Char) : Nat := l.foldl (fun a c => 10 * a + (c.toNat - 48)) 0

/-- Exact value of a sign/integer-digits/fraction-digits decimal token. -/
def tokenRat (neg : Bool) (ds fs : List Char) : ℚ :=
  (if neg then -1 else 1) * ((natDigits ds : ℚ) + (natDigits fs : ℚ) / (10 : ℚ) ^ fs.length)

/-- Grammar stage of CPython `float(s)`, unsigned part: maximal digits, optional
dot, maximal digits, and nothing may remain. Success carries the literal's sign
and digit parts; `none` models `ValueError`. -/
def decPartsMag (neg : Bool) (l : List Char) : Option (Bool × List Char × List Char) :=
  if (spanDigits l).1 = [] then none
  else
    match (spanDigits l).2 with
    | [] => some (neg, (spanDigits l).1, [])
    | '.' :: l2 =>
      if (spanDigits l2).2 = [] then some (neg, (spanDigits l).1, (spanDigits l2).1)
      else none
    | _ => none

/-- Grammar stage of CPython `float(s)` on the sub-grammar `-?digits(.digits*)?`
that the number pattern can produce; `none` models `ValueError` (the exception
the `except ValueError` in `parse_answer` catches). -/
def decParts (l : List Char) : Option (Bool × List Char × List Char) :=
  match l with
  | [] => none
  | c :: rest => if c == '-' then decPartsMag true rest else decPartsMag false (c :: rest)

/-- IEEE-754 binary64 values reachable from the number pattern: a finite double
with value ±m·2^p (m need not be normalized), or an infinity — CPython's
string-to-float conversion overflows silently to `inf` (no exception), and the
digit-only grammar cannot produce NaN. -/
inductive PyFloat where
  | finite (neg : Bool) (m : Nat) (p : ℤ)
  | posInf
  | negInf
deriving DecidableEq

/-- Exact rational value of a finite double (infinities mapped to 0). -/
def pyFloatVal : PyFloat → ℚ
  | .finite neg m p => (if neg then -1 else 1) * (m : ℚ) * (2 : ℚ) ^ p
  | .posInf => 0
  | .negInf => 0

/-- Bit length by repeated halving, with structural fuel; exact whenever
`n < 2^fuel` (`bitlenF_fuel` shows the fuel is then irrelevant). -/
def bitlenF : Nat → Nat → Nat
  | 0, _ => 0
  | f + 1, n => if n = 0 then 0 else bitlenF f (n / 2) + 1

theorem bitlenF_fuel : ∀ (f g n : Nat), n < 2 ^ f → n < 2 ^ g → bitlenF f n = bitlenF g n := by
  intro f
  induction f with
  | zero =>
    intro g n hf _
    have hn : n = 0 := by simpa using hf
    subst hn
    cases g with
    | zero => rfl
    | succ g => simp [bitlenF]
  | succ f ih =>
    intro g n hf hg
    cases g with
    | zero =>
      have hn : n = 0 := by simpa using hg
      subst hn
      simp [bitlenF]
    | succ g =>
      by_cases hn : n = 0
      · subst hn
        simp [bitlenF]
      · have h2 : n / 2 < 2 ^ f := by rw [pow_succ] at hf; omega
        have h3 : n / 2 < 2 ^ g := by rw [pow_succ] at hg; omega
        simp only [bitlenF, if_neg hn]
        rw [ih g (n / 2) h2 h3]

/-- Any accumulator value of the `natDigits` fold is below `(a + 2^33)·16^len`
(each step contributes at most `Char.toNat < 2^32`). -/
theorem natDigits_foldl_lt : ∀ (l : List Char) (a : Nat),
    List.foldl (fun a c => 10 * a + (c.toNat - 48)) a l < (a + 2 ^ 33) * 16 ^ l.length := by
  intro l
  induction l with
  | nil =>
    intro a
    simp
  | cons c cs ih =>
    intro a
    have hd : c.toNat - 48 < 2 ^ 32 := by
      have h0 : c.toNat < 4294967296 := c.val.toNat_lt
      omega
    have h2 := ih (10 * a + (c.toNat - 48))
    have h3 : 10 * a + (c.toNat - 48) + 2 ^ 33 ≤ 16 * (a + 2 ^ 33) := by omega
    calc List.foldl (fun a c => 10 * a + (c.toNat - 48)) a (c :: cs)
        = List.foldl (fun a c => 10 * a + (c.toNat - 48)) (10 * a + (c.toNat - 48)) cs := rfl
      _ < (10 * a + (c.toNat - 48) + 2 ^ 33) * 16 ^ cs.length := h2
      _ ≤ 16 * (a + 2 ^ 33) * 16 ^ cs.length := Nat.mul_le_mul_right _ h3
      _ = (a + 2 ^ 33) * 16 ^ (c :: cs).length := by
          rw [List.length_cons, pow_succ]
          ring

/-- The fuel `4·len + 34` used by `roundDec` always covers `natDigits`. -/
theorem natDigits_lt (l : List Char) : natDigits l < 2 ^ (4 * l.length + 34) := by
  have h := natDigits_foldl_lt l 0
  calc natDigits l < (0 + 2 ^ 33) * 16 ^ l.length := h
    _ = 2 ^ 33 * 2 ^ (4 * l.length) := by
        rw [Nat.zero_add, show (16:ℕ) = 2 ^ 4 from rfl, ← pow_mul]
    _ = 2 ^ (4 * l.length + 33) := by rw [← pow_add]; ring_nf
    _ < 2 ^ (4 * l.length + 34) := Nat.pow_lt_pow_right (by norm_num) (by omega)

/-- The fuel `4·len + 34` used by `roundDec` also covers the denominator. -/
theorem pow10_lt (k : Nat) : 10 ^ k < 2 ^ (4 * k + 34) := by
  calc (10:ℕ) ^ k ≤ 16 ^ k := Nat.pow_le_pow_left (by norm_num) k
    _ = 2 ^ (4 * k) := by rw [show (16:ℕ) = 2 ^ 4 from rfl, ← pow_mul]
    _ < 2 ^ (4 * k + 34) := Nat.pow_lt_pow_right (by norm_num) (by omega)

/-- Round-half-to-even integer division (the IEEE default rounding). -/
def roundHalfEvenDiv (a b : Nat) : Nat :=
  if 2 * (a % b) < b then a / b
  else if b < 2 * (a % b) then a / b + 1
  else if a / b % 2 = 0 then a / b else a / b + 1

/-- `2^j ≤ N / D` for an integer `j` (`D > 0`), by cross-multiplication. -/
def qGePow2 (N D : Nat) (j : ℤ) : Bool :=
  if 0 ≤ j then decide (2 ^ j.toNat * D ≤ N) else decide (D ≤ 2 ^ (-j).toNat * N)

/-- CPython `float()` of a decimal literal with sign `neg`, integer digits `ds`
and fraction digits `fs`: round the exact value ±N/10^k (N the digits value,
k the fraction length) to the nearest IEEE-754 binary64 double. The exponent
`e = ⌊log2(N/10^k)⌋` is located from the bit lengths of N and 10^k (off by at
most one, settled by one comparison), the significand is rounded half-to-even
on the grid 2^p with `p = max (e-52) (-1074)` (gradual underflow), and a
rounded value of at least 2^1024 overflows silently to infinity, as CPython's
string conversion does (unlike `float(int)`, it raises no OverflowError). The
bit-length fuel `4·(digit count)+34` always suffices (`natDigits_lt`,
`pow10_lt`, `bitlenF_fuel`). -/
def roundDec (neg : Bool) (ds fs : List Char) : PyFloat :=
  let N := natDigits (ds ++ fs)
  let k := fs.length
  if N = 0 then .finite neg 0 0
  else
    let fuel := 4 * (ds.length + fs.length) + 34
    let eb : ℤ := (bitlenF fuel N : ℤ) - (bitlenF fuel (10 ^ k) : ℤ)
    let e : ℤ := if qGePow2 N (10 ^ k) eb then eb else eb - 1
    let p : ℤ := max (e - 52) (-1074)
    let m : Nat :=
      if 0 ≤ p then roundHalfEvenDiv N (10 ^ k * 2 ^ p.toNat)
      else roundHalfEvenDiv (N * 2 ^ (-p).toNat) (10 ^ k)
    let ovf : Bool :=
      if 0 ≤ p then decide (2 ^ 1024 ≤ m * 2 ^ p.toNat)
      else decide (2 ^ (1024 + (-p).toNat) ≤ m)
    if ovf then (if neg then .negInf else .posInf)
    else .finite neg m p

/-- CPython `float(s)`: the grammar stage, then binary64 rounding. -/
def pyFloat (l : List Char) : Option PyFloat :=
  (decParts l).map (fun p => roundDec p.1 p.2.1 p.2.2)

def overflowMsg : String := "cannot convert float infinity to integer"

/-- CPython `int()` of a float: exact truncation toward zero of a finite double
±m·2^p (Nat division by the power of two truncates the positive magnitude),
and `OverflowError` on an infinity — an exception the `except ValueError` at
quiz_solver.py line 115 does not catch, so it propagates out of `parse_answer`. -/
def pyIntFloat : PyFloat → Except String ℤ
  | .finite neg m p =>
    let a : Nat := if 0 ≤ p then m * 2 ^ p.toNat else m / 2 ^ (-p).toNat
    .ok (if neg then -(a : ℤ) else (a : ℤ))
  | .posInf => .error overflowMsg
  | .negInf => .error overflowMsg

/-- Exact value of a token accepted by the grammar (0 outside its domain); used
by the spec-side numeric rule, which speaks of the numeral's value itself. -/
def tokenVal (t : List Char) : ℚ :=
  match decParts t with
  | some p => tokenRat p.1 p.2.1 p.2.2
  | none => 0

theorem grabNumCore_parts (neg : Bool) (c : Char) (cs : List Char) (hc : c.isDigit = true) :
    ∃ p, decPartsMag neg ((grabNumCore c cs).1) = some p := by
  unfold grabNumCore
  split
  · next rest heq =>
    have hspan : spanDigits ((c :: (spanDigits cs).1) ++ '.' :: (spanDigits rest).1)
        = (c :: (spanDigits cs).1, '.' :: (spanDigits rest).1) := by
      apply spanDigits_concat
      · intro x hx
        rcases List.mem_cons.mp hx with h | h
        · rw [h]; exact hc
        · exact spanDigits_fst_digit cs x h
      · exact Or.inr ⟨'.', (spanDigits rest).1, rfl, by decide⟩
    have hfs : spanDigits ((spanDigits rest).1 ++ ([] : List Char))
        = ((spanDigits rest).1, ([] : List Char)) := by
      apply spanDigits_concat
      · exact spanDigits_fst_digit rest
      · exact Or.inl rfl
    rw [List.append_nil] at hfs
    refine ⟨(neg, c :: (spanDigits cs).1, (spanDigits rest).1), ?_⟩
    simp only [List.cons_append] at hspan ⊢
    simp [decPartsMag, hspan, hfs]
  · have hspan : spanDigits ((c :: (spanDigits cs).1) ++ ([] : List Char))
        = (c :: (spanDigits cs).1, ([] : List Char)) := by
      apply spanDigits_concat
      · intro x hx
        rcases List.mem_cons.mp hx with h | h
        · rw [h]; exact hc
        · exact spanDigits_fst_digit cs x h
      · exact Or.inl rfl
    rw [List.append_nil] at hspan
    refine ⟨(neg, c :: (spanDigits cs).1, []), ?_⟩
    simp [decPartsMag, hspan]

theorem grabNumCore_fst (c : Char) (cs : List Char) :
    ∃ X, (grabNumCore c cs).1 = c :: X := by
  unfold grabNumCore
  split
  · next rest heq =>
    exact ⟨(spanDigits cs).1 ++ '.' :: (spanDigits rest).1, by simp⟩
  · exact ⟨(spanDigits cs).1, rfl⟩

theorem decParts_cons (c : Char) (rest : List Char) (hc : (c == '-') = false) :
    decParts (c :: rest) = decPartsMag false (c :: rest) := by
  simp [decParts, hc]

theorem decParts_neg (rest : List Char) : decParts ('-' :: rest) = decPartsMag true rest := by
  simp [decParts]

theorem grabNum_parts (c : Char) (cs t r : List Char) (h : grabNum c cs = some (t, r)) :
    ∃ p, decParts t = some p := by
  unfold grabNum at h
  split at h
  · next hc =>
    have h2 : grabNumCore c cs = (t, r) := Option.some.inj h
    have ht : t = (grabNumCore c cs).1 := by rw [h2]
    obtain ⟨p, hp⟩ := grabNumCore_parts false c cs hc
    obtain ⟨X, hX⟩ := grabNumCore_fst c cs
    have hcm : (c == '-') = false := by
      by_cases hb : c = '-'
      · rw [hb] at hc
        exact absurd hc (by decide)
      · simp [hb]
    refine ⟨p, ?_⟩
    rw [ht, hX, decParts_cons c X hcm, ← hX]
    exact hp
  · split at h
    · split at h
      · exact absurd h (by simp)
      · next d cs2 =>
        split at h
        · next hd =>
          have h2 : (('-' :: (grabNumCore d cs2).1, (grabNumCore d cs2).2) : List Char × List Char)
              = (t, r) := Option.some.inj h
          have ht : t = '-' :: (grabNumCore d cs2).1 := by
            have h4 := congrArg Prod.fst h2
            simpa using h4.symm
          obtain ⟨p, hp⟩ := grabNumCore_parts true d cs2 hd
          refine ⟨p, ?_⟩
          rw [ht, decParts_neg]
          exact hp
        · exact absurd h (by simp)
    · exact absurd h (by simp)

/-- Every token found by the number scanner is accepted by the modelled `float`:
its grammar stage succeeds, so `float` raises no `ValueError` on it. -/
theorem mem_findNums_float (l t : List Char) (h : t ∈ findNums l) :
    ∃ f, pyFloat t = some f := by
  obtain ⟨c, cs, r, hg⟩ := findNumsF_mem l.length l t h
  obtain ⟨p, hp⟩ := grabNum_parts c cs t r hg
  exact ⟨roundDec p.1 p.2.1 p.2.2, by rw [pyFloat, hp, Option.map_some']⟩

theorem getLast?_some {β : Type} : ∀ (l : List β), l ≠ [] → ∃ a, l.getLast? = some a := by
  intro l h
  induction l with
  | nil => exact absurd rfl h
  | cons a as ih =>
    cases as with
    | nil => exact ⟨a, rfl⟩
    | cons b bs =>
      obtain ⟨x, hx⟩ := ih (by simp)
      exact ⟨x, by rw [List.getLast?_cons_cons]; exact hx⟩

theorem getLast?_mem' {β : Type} : ∀ (l : List β) (a : β), l.getLast? = some a → a ∈ l := by
  intro l
  induction l with
  | nil => intro a h; simp at h
  | cons x xs ih =>
    intro a h
    cases xs with
    | nil =>
      simp at h
      simp [h]
    | cons y ys =>
      rw [List.getLast?_cons_cons] at h
      exact List.mem_cons_of_mem x (ih a h)

/-- The outcomes of `QuizSolver.parse_answer`: a returned Python value (bool,
int, float, the object returned by `json.loads`, or str), or — the
Except-style error case inlined into the result type — an exception
propagating out of the function: the OverflowError that `int(float(...))`
raises on an infinite float and that `except ValueError` does not catch. -/
inductive PyAnswer (α : Type) where
  | bool (b : Bool)
  | int (n : ℤ)
  | float (q : ℚ)
  | json (v : α)
  | str (s : List Char)
  | raised (msg : String)
deriving DecidableEq

/-- Does a `parse_answer` outcome carry a Python int? -/
def isIntAnswer {α : Type} : PyAnswer α → Bool
  | .int _ => true
  | _ => false

/-- `parse_answer`'s fall-through ladder after the boolean and numeric rules
(quiz_solver.py lines 118-129): JSON detection (the `json.loads` stdlib call is
abstracted as the `jload` parameter, quantified over in every theorem), then
base64 data-URI detection, which — like the final fallback — returns the
stripped response itself. -/
def tailRules {α : Type} (jload : List Char → Option α) (r : List Char) : PyAnswer α :=
  match (if hasSub [Char.ofNat 123] r && hasSub [Char.ofNat 125] r then jload r else none) with
  | some v => PyAnswer.json v
  | none =>
    if isPre ("data:".data) r && hasSub [';'] r then PyAnswer.str r
    else PyAnswer.str r

/-- `QuizSolver.parse_answer` (quiz_solver.py lines 100-129). The numeric branch
is `int(float(numbers[-1]))`: a `ValueError` from `float` (never raised on the
scanner's tokens, see C9) would be caught and fall through; an `OverflowError`
from `int` on an infinite float is not caught and propagates (`.raised`). -/
def parse_answer {α : Type} (jload : List Char → Option α) (response instruction : List Char) :
    PyAnswer α :=
  let r := pyStrip response
  if boolKeywordHit instruction then
    PyAnswer.bool (([("true".data), ("yes".data), ("1".data)]).contains (pyLower r))
  else if numKeywordHit instruction then
    match (findNums r).getLast? with
    | some t =>
      match pyFloat t with
      | some f =>
        match pyIntFloat f with
        | .ok n => PyAnswer.int n
        | .error m => PyAnswer.raised m
      | none => tailRules jload r
    | none => tailRules jload r
  else tailRules jload r

/-- A `json.loads` oracle that always fails, used to instantiate witnesses. -/
def jNoneU : List Char → Option Unit := fun _ => none

/-- The numeric rule as the spec words it (§4.2 rule 2): take the last numeral
found; an integer when it has no fractional remainder, otherwise the fractional
value itself. Comparison definition for the refinement check of C1. -/
def specNumericRule (α : Type) (response : List Char) : Option (PyAnswer α) :=
  ((findNums response).getLast?).map (fun t =>
    if (tokenVal t).den = 1 then PyAnswer.int (tokenVal t).num else PyAnswer.float (tokenVal t))

theorem parse_numeric_eq (α : Type) (jload : List Char → Option α)
    (instruction response t : List Char) (f : PyFloat)
    (hb : boolKeywordHit instruction = false) (hn : numKeywordHit instruction = true)
    (hl : (findNums (pyStrip response)).getLast? = some t) (hq : pyFloat t = some f) :
    parse_answer jload response instruction =
      (match pyIntFloat f with
       | .ok n => PyAnswer.int n
       | .error m => PyAnswer.raised m) := by
  unfold parse_answer
  simp only [hb, hn, Bool.false_eq_true, if_false, if_true]
  rw [hl]
  show (match pyFloat t with
    | some f =>
      (match pyIntFloat f with
       | .ok n => PyAnswer.int n
       | .error m => PyAnswer.raised m)
    | none => tailRules jload (pyStrip response)) = _
  rw [hq]

theorem tokenRat_35 : tokenRat false ("3".data) ("5".data) = 7 / 2 := by
  rw [tokenRat]
  rw [show natDigits ("3".data) = 3 from rfl, show natDigits ("5".data) = 5 from rfl,
      show (("5".data) : List Char).length = 1 from rfl]
  norm_num

theorem tokenVal_35 : tokenVal ("3.5".data) = 7 / 2 := by
  rw [tokenVal, show decParts ("3.5".data) = some (false, ("3".data), ("5".data)) from rfl]
  exact tokenRat_35

/-- C1: the spec's numeric rule says the last numeral is returned as an integer
when it has no fractional remainder and otherwise as the fractional value.  The
code's numeric branch is `int(float(numbers[-1]))`, which truncates toward zero
and never yields a fractional value: on instruction "total" (numeric keyword,
no boolean keyword) and model text "3.5" it returns the integer 3, where the
spec's rule (`specNumericRule`) demands the fractional value 7/2. -/
theorem claim_C1_counterexample :
    parse_answer jNoneU ("3.5".data) ("total".data) = PyAnswer.int 3 ∧
    specNumericRule Unit ("3.5".data) = some (PyAnswer.float (7 / 2)) ∧
    (PyAnswer.int 3 : PyAnswer Unit) ≠ PyAnswer.float (7 / 2) := by
  refine ⟨by decide, ?_, by simp⟩
  · rw [specNumericRule, show (findNums ("3.5".data)).getLast? = some ("3.5".data) from rfl]
    rw [Option.map_some', tokenVal_35]
    rw [if_neg (by norm_num)]

/-- C1 (amended): for every instruction containing a numeric keyword on which
the boolean rule does not fire, and every model text whose stripped form
contains at least one numeric literal, `parse_answer` applies
`int(float(...))` to the last numeric literal found: the literal is rounded
to the nearest IEEE-754 binary64 value and, when finite, truncated toward
zero to an integer — a fractional value is never returned; when the literal
overflows to infinity, `int()` raises an OverflowError that the ValueError
guard does not catch, and the exception propagates instead of a return. -/
theorem claim_C1_amended : ∀ (α : Type) (jload : List Char → Option α)
    (instruction response : List Char),
    boolKeywordHit instruction = false → numKeywordHit instruction = true →
    findNums (pyStrip response) ≠ [] →
    ∃ f, pyFloat ((findNums (pyStrip response)).getLastD []) = some f ∧
      parse_answer jload response instruction =
        (match pyIntFloat f with
         | .ok n => PyAnswer.int n
         | .error m => PyAnswer.raised m) := by
  intro α jload instruction response hb hn hne
  obtain ⟨t, ht⟩ := getLast?_some _ hne
  obtain ⟨f, hf⟩ := mem_findNums_float _ t (getLast?_mem' _ t ht)
  have hd : (findNums (pyStrip response)).getLastD [] = t := by
    rw [List.getLastD_eq_getLast?, ht, Option.getD_some]
  refine ⟨f, ?_, parse_numeric_eq α jload instruction response t f hb hn ht hf⟩
  rw [hd]
  exact hf

theorem claim_C1_witness :
    parse_answer jNoneU ("The total is 37 apples".data) ("What is the total?".data)
      = PyAnswer.int 37 := by
  obtain ⟨f, hf, hp⟩ := claim_C1_amended Unit jNoneU ("What is the total?".data)
    ("The total is 37 apples".data) (by decide) (by decide) (by decide)
  have h2 : pyFloat ((findNums (pyStrip ("The total is 37 apples".data))).getLastD [])
      = some (PyFloat.finite false (37 * 2 ^ 47) (-47)) := by decide
  rw [h2] at hf
  rw [hp, ← Option.some.inj hf]
  decide

/-- C4: whenever the instruction contains one of "true"/"false"/"yes"/"no"
case-insensitively, `parse_answer` returns a boolean — for any model text and
any `json.loads` behavior — and that boolean is `true` iff the stripped model
text lowercases to exactly "true", "yes", or "1". The boolean rule fires first,
so no later rule is attempted. -/
theorem claim_C4 : ∀ (α : Type) (jload : List Char → Option α)
    (instruction response : List Char),
    boolKeywordHit instruction = true →
    parse_answer jload response instruction
      = PyAnswer.bool (([("true".data), ("yes".data), ("1".data)]).contains
          (pyLower (pyStrip response)))
    ∧ (parse_answer jload response instruction = PyAnswer.bool true ↔
        (pyLower (pyStrip response) = ("true".data) ∨ pyLower (pyStrip response) = ("yes".data) ∨
         pyLower (pyStrip response) = ("1".data))) := by
  intro α jload instruction response hb
  have h1 : parse_answer jload response instruction
      = PyAnswer.bool (([("true".data), ("yes".data), ("1".data)]).contains
          (pyLower (pyStrip response))) := by
    unfold parse_answer
    simp only [hb, if_true]
  refine ⟨h1, ?_⟩
  rw [h1]
  simp [List.contains]

theorem claim_C4_witness :
    parse_answer jNoneU ("No, it is not".data) ("Is the result valid? (yes/no)".data)
      = PyAnswer.bool false := by
  have h := (claim_C4 Unit jNoneU ("Is the result valid? (yes/no)".data)
    ("No, it is not".data) (by decide)).1
  rw [h]
  decide

/-- A 309-digit numeral (2·10^308 > DBL_MAX): CPython `float` converts it
silently to `inf`, and `int(inf)` raises OverflowError. -/
def bigTok : List Char := '2' :: List.replicate 308 '0'

/-- C9: the claim says parse always returns an integer once the numeric rule
fires with a numeral present. False: on instruction "sum" (numeric keyword,
boolean rule silent) and a 309-digit model text, the last numeral converts to
an infinite float, `int()` raises OverflowError — which `except ValueError`
(quiz_solver.py line 115) does not catch — and `parse_answer` raises instead
of returning; in particular its outcome is not an integer. -/
theorem claim_C9_counterexample :
    boolKeywordHit ("sum".data) = false ∧ numKeywordHit ("sum".data) = true ∧
    findNums bigTok ≠ [] ∧
    parse_answer jNoneU bigTok ("sum".data) = PyAnswer.raised overflowMsg ∧
    isIntAnswer (parse_answer jNoneU bigTok ("sum".data)) = false := by
  refine ⟨by decide, by decide, by decide, by decide, by decide⟩

/-- C9 (amended): (1) every token matched by the number pattern `-?\d+\.?\d*`
is accepted by Python `float` — it raises no ValueError on it, so the
`except ValueError` fall-through is unreachable; (2) whenever the numeric rule
fires (numeric keyword present, boolean rule silent) and the stripped model
text contains at least one numeral, `parse_answer` either returns an integer
or raises the uncaught OverflowError of `int()` on an infinite float — for any
`json.loads` behavior; in either case the structured/data-URI/fallback rules
are never reached. -/
theorem claim_C9_amended :
    (∀ (l t : List Char), t ∈ findNums l → pyFloat t ≠ none) ∧
    (∀ (α : Type) (jload : List Char → Option α) (instruction response : List Char),
      boolKeywordHit instruction = false → numKeywordHit instruction = true →
      findNums (pyStrip response) ≠ [] →
      (∃ n : ℤ, parse_answer jload response instruction = PyAnswer.int n) ∨
      parse_answer jload response instruction = PyAnswer.raised overflowMsg) := by
  constructor
  · intro l t h
    obtain ⟨f, hf⟩ := mem_findNums_float l t h
    simp [hf]
  · intro α jload instruction response hb hn hne
    obtain ⟨t, ht⟩ := getLast?_some _ hne
    obtain ⟨f, hf⟩ := mem_findNums_float _ t (getLast?_mem' _ t ht)
    have hp := parse_numeric_eq α jload instruction response t f hb hn ht hf
    cases hint : pyIntFloat f with
    | ok n =>
      left
      exact ⟨n, by rw [hp, hint]⟩
    | error msg =>
      have hmsg : msg = overflowMsg := by
        cases f with
        | finite neg m p => simp [pyIntFloat] at hint
        | posInf =>
          simp [pyIntFloat] at hint
          exact hint.symm
        | negInf =>
          simp [pyIntFloat] at hint
          exact hint.symm
      right
      rw [hp, hint, hmsg]

theorem claim_C9_witness :
    pyFloat ("-12.".data) ≠ none ∧
    ((∃ n : ℤ, parse_answer jNoneU ("about 3.9 or so".data) ("count".data) = PyAnswer.int n) ∨
      parse_answer jNoneU ("about 3.9 or so".data) ("count".data)
        = PyAnswer.raised overflowMsg) := by
  constructor
  · exact claim_C9_amended.1 ("x-12.y".data) ("-12.".data) (by decide)
  · exact claim_C9_amended.2 Unit jNoneU ("count".data) ("about 3.9 or so".data)
      (by decide) (by decide) (by decide)

/-- C10: the keyword tests are plain substring containment on the lowercased
instruction, not word matching: an instruction containing "no" anywhere — also
inside a longer word such as "note" — makes `parse_answer` return a boolean
for every model text, taking precedence over the numeric, structured and
fallback rules even when a numeric keyword is present too. -/
theorem claim_C10 : ∀ (α : Type) (jload : List Char → Option α)
    (instruction response : List Char),
    hasSub ("no".data) (pyLower instruction) = true →
    parse_answer jload response instruction
      = PyAnswer.bool (([("true".data), ("yes".data), ("1".data)]).contains
          (pyLower (pyStrip response))) := by
  intro α jload instruction response hno
  have hb : boolKeywordHit instruction = true := by
    rw [boolKeywordHit, hno]
    simp
  unfold parse_answer
  simp only [hb, if_true]

theorem claim_C10_witness :
    parse_answer jNoneU ("42".data) ("note the total".data) = PyAnswer.bool false := by
  have h := claim_C10 Unit jNoneU ("note the total".data) ("42".data) (by decide)
  rw [h]
  decide

/-- The character class `[^\s"\'<>]` of the submit-URL patterns (main.py lines 94-95). -/
def urlChar (c : Char) : Bool :=
  !(pyIsSpace c) && c != '"' && c != Char.ofNat 39 && c != '<' && c != '>'

/-- Match `https?://` at the head (greedy optional `s`); returns scheme and rest. -/
def matchScheme (l : List Char) : Option (List Char × List Char) :=
  if isPre ("https://".data) l then some (("https://".data), l.drop 8)
  else if isPre ("http://".data) l then some (("http://".data), l.drop 7)
  else none

/-- Greedy backtracking of `[^\s"\'<>]+sfx`: largest split point `j ≥ 1` of `run`
where `sfx` starts at offset `j` (the regex engine shrinks the greedy class run
from the right, so the last viable occurrence of the literal wins). -/
def lastSplitJ (sfx run : List Char) : Option Nat :=
  (List.range (run.length + 1)).reverse.find? (fun j => decide (1 ≤ j) && isPre sfx (run.drop j))

/-- Match `https?://[^\s"\'<>]+sfx` starting exactly here; returns `group(0)`. -/
def matchSubmitAt (sfx : List Char) (l : List Char) : Option (List Char) :=
  match matchScheme l with
  | none => none
  | some (scheme, rest) =>
    match lastSplitJ sfx (rest.takeWhile urlChar) with
    | none => none
    | some j => some (scheme ++ (rest.takeWhile urlChar).take j ++ sfx)

/-- `re.search` position scan: earliest position where the pattern matches. -/
def searchPat (f : List Char → Option (List Char)) : List Char → Option (List Char)
  | [] => f []
  | c :: cs =>
    match f (c :: cs) with
    | some m => some m
    | none => searchPat f cs

/-- Match `"url":\s*"(https?://[^"]+)"` starting exactly here; returns `group(0)`
(the whole key-value literal, quotes included — which is what line 101 uses). -/
def matchP3At (l : List Char) : Option (List Char) :=
  if isPre ("\"url\":".data) l then
    match l.drop 6 |>.dropWhile pyIsSpace with
    | c :: rest3 =>
      if c == '"' then
        match matchScheme rest3 with
        | some (scheme, rest4) =>
          match rest4.dropWhile (fun x => x != '"') with
          | '"' :: _ =>
            if rest4.takeWhile (fun x => x != '"') = [] then none
            else some (("\"url\":".data) ++ ((l.drop 6).takeWhile pyIsSpace) ++
              '"' :: (scheme ++ rest4.takeWhile (fun x => x != '"')) ++ ['"'])
          | _ => none
        | none => none
      else none
    | [] => none
  else none

/-- `match.group(0).replace('"', '')` (main.py line 101). -/
def stripQuotes (l : List Char) : List Char := l.filter (fun c => c != '"')

/-- `extract_submit_url` (main.py lines 90-102): try the three patterns in
order, first `re.search` hit wins, return `group(0)` with quotes removed. -/
def extract_submit_url (html : List Char) : Option (List Char) :=
  match searchPat (matchSubmitAt ("/submit".data)) html with
  | some m => some (stripQuotes m)
  | none =>
    match searchPat (matchSubmitAt ("/api/submit".data)) html with
    | some m => some (stripQuotes m)
    | none =>
      match searchPat matchP3At html with
      | some m => some (stripQuotes m)
      | none => none

/-- Split at the first occurrence of `pat`: returns (before, after-the-match). -/
def splitAtSub (pat : List Char) : List Char → Option (List Char × List Char)
  | [] => if isPre pat [] then some ([], []) else none
  | c :: cs =>
    if isPre pat (c :: cs) then some ([], (c :: cs).drop pat.length)
    else
      match splitAtSub pat cs with
      | some (b, a) => some (c :: b, a)
      | none => none

/-- Match `<div[^>]*id="result"[^>]*>(.*?)</div>` (DOTALL) starting exactly here;
returns `group(1)`: the tag region runs to the first `>`, must contain the
`id="result"` literal, and the lazy group stops at the first `</div>`. -/
def matchDivAt (l : List Char) : Option (List Char) :=
  if isPre ("<div".data) l then
    match (l.drop 4).dropWhile (fun c => c != '>') with
    | '>' :: afterTag =>
      if hasSub ("id=\"result\"".data) ((l.drop 4).takeWhile (fun c => c != '>')) then
        match splitAtSub ("</div>".data) afterTag with
        | some (content, _) => some content
        | none => none
      else none
    | _ => none
  else none

/-- `re.sub(r'<[^>]+>', '', ·)`: delete every `<...>` tag (at least one non-`>`
character between the brackets), scanning left to right. Fuel-based; fuel
`l.length` suffices since every step consumes at least one character. -/
def stripTagsF : Nat → List Char → List Char
  | 0, l => l
  | _ + 1, [] => []
  | f + 1, c :: cs =>
    if c == '<' then
      match cs.dropWhile (fun x => x != '>') with
      | '>' :: rest2 =>
        if cs.takeWhile (fun x => x != '>') = [] then c :: stripTagsF f cs
        else stripTagsF f rest2
      | _ => c :: stripTagsF f cs
    else c :: stripTagsF f cs

def stripTags (l : List Char) : List Char := stripTagsF l.length l

/-- `extract_quiz_instruction` (main.py lines 77-88): find the result div,
strip the markup from its content, trim; empty instruction when no match. -/
def extract_quiz_instruction (html : List Char) : List Char :=
  match searchPat matchDivAt html with
  | some content => pyStrip (stripTags content)
  | none => []

/-- C6: the claim says that when no `/submit`- or `/api/submit`-ending URL is
present but a `"url": "<absolute URL>"` literal is, the extractor returns
exactly that absolute URL. The code instead returns `match.group(0)` — the
whole key-value literal — with the quotes removed (main.py line 101 uses
`group(0)`, not the capture group), i.e. the string `url: <URL>`, which is not
a URL at all. Evaluated on a page whose only match is the third pattern. -/
theorem claim_C6_code_eval :
    extract_submit_url (("\x7b\"url\": \"https://example.com/answer\"\x7d").data)
      = some (("url: https://example.com/answer").data) ∧
    (("url: https://example.com/answer").data) ≠ (("https://example.com/answer").data) := by
  exact ⟨by decide, by decide⟩

/-! ## The Quiz Chain Driver (main.py, `process_quiz_chain` and friends)

External effects are parameters: per-iteration environments carry the elapsed
wall-clock seconds sampled at the top-of-iteration check, the outcome of the
Playwright render (an exception message or the page HTML), the LLM's free-text
answer (`QuizSolver.analyze_data` catches all its own exceptions and returns a
string), and the transport outcome of the submission POST. Logging is I/O and
is elided; the mutable `quiz_results[task_id]` entry is the `DriverState`,
extended with ghost counters for performed renders/submits and the attempt
count of line 157. -/

inductive TaskStatus where
  | processing
  | completed
  | failed
deriving DecidableEq

inductive TaskResult where
  | success (msg : String)
  | error (msg : String)
deriving DecidableEq

structure DriverState where
  status : TaskStatus
  result : Option TaskResult
  attempts : Nat
  renders : Nat
  submits : Nat
deriving DecidableEq

/-- Abstraction of the JSON object the submission endpoint answers with:
`correct` is the truthiness of `result.get("correct")`, `url`/`reason` are the
optional string fields (absent = `none`). -/
structure RespJson where
  correct : Bool
  url : Option String
  reason : Option String
deriving DecidableEq

/-- Outcome of `requests.post` followed by `response.json()`: the POST itself
may raise (timeout, connection error), and an answering response's `.json()`
may raise on a non-JSON body. -/
inductive PostOutcome where
  | exn (msg : String)
  | jsonExn (msg : String)
  | ok (j : RespJson)
deriving DecidableEq

/-- `submit_answer` (main.py lines 119-133): the whole POST + `.json()` pair
sits in one `try`; any exception is caught and replaced by the synthetic
verdict `{"correct": False, "reason": str(e)}`. Total — no failure escapes. -/
def submit_answer (post : PostOutcome) : RespJson :=
  match post with
  | .exn m => ⟨false, none, some m⟩
  | .jsonExn m => ⟨false, none, some m⟩
  | .ok j => j

/-- Environment of one loop iteration. -/
structure IterEnv where
  elapsedSec : ℚ
  render : Except String String
  llm : String
  post : PostOutcome

inductive StepOut where
  | halt (s : DriverState)
  | next (url : String) (s : DriverState)
deriving DecidableEq

/-- Python truthiness of `result.get("url")`: `None` and `""` are both falsy. -/
def truthyOpt : Option String → Option String
  | none => none
  | some s => if s = "" then none else some s

def maxAttempts : Nat := 10

def timeBudgetSec : ℚ := 180

/-- Verdict inspection (main.py lines 199-219). -/
def inspectVerdict (result : RespJson) (st : DriverState) : StepOut :=
  if result.correct then
    match truthyOpt result.url with
    | none => .halt { st with
        status := .completed,
        result := some (.success ("All quizzes completed")) }
    | some u => .next u st
  else
    match truthyOpt result.url with
    | some u => .next u st
    | none => .halt { st with
        status := .failed,
        result := some (.error ((result.reason).getD ("Unknown error"))) }

/-- One execution of the loop body (main.py lines 156-229): bump the attempt
counter, check the 3-minute budget, render, extract, solve+parse, submit,
inspect the verdict. Two steps of the `try` block can raise — the render, and
the parse (an OverflowError from `int(float(...))`, see C9); either exception
is caught by the `except` at lines 221-227, failing the task with `str(e)`. -/
def loopStep {α : Type} (jload : List Char → Option α) (env : IterEnv)
    (st : DriverState) : StepOut :=
  let st1 : DriverState := { st with attempts := st.attempts + 1 }
  if timeBudgetSec < env.elapsedSec then
    .halt { st1 with status := .failed, result := some (.error ("Time limit exceeded")) }
  else
    match env.render with
    | .error msg =>
      .halt { st1 with
        status := .failed,
        result := some (.error (if msg = "" then ("Unknown error occurred") else msg)) }
    | .ok html =>
      let st2 : DriverState := { st1 with renders := st1.renders + 1 }
      match extract_submit_url html.data with
      | none => .halt { st2 with
          status := .failed,
          result := some (.error ("Could not find submit URL")) }
      | some _ =>
        match parse_answer jload (env.llm).data (extract_quiz_instruction html.data) with
        | PyAnswer.raised m =>
          .halt { st2 with
            status := .failed,
            result := some (.error (if m = "" then ("Unknown error occurred") else m)) }
        | _ =>
          let st3 : DriverState := { st2 with submits := st2.submits + 1 }
          inspectVerdict (submit_answer env.post) st3

/-- The `while current_url and attempt_count < max_attempts` loop (main.py
line 156). Fuel `maxAttempts` is exact: the condition already stops the loop
after `maxAttempts` body executions (see `runLoop_fuel`). -/
def runLoop {α : Type} (jload : List Char → Option α) (envs : Nat → IterEnv) :
    Nat → String → DriverState → DriverState
  | 0, _, st => st
  | fuel + 1, url, st =>
    if url ≠ "" ∧ st.attempts < maxAttempts then
      match loopStep jload (envs st.attempts) st with
      | .halt s => s
      | .next u s => runLoop jload envs fuel u s
    else st

/-- The post-loop `if attempt_count >= max_attempts` check (main.py lines
231-234): it runs unconditionally after the loop, overwriting whatever status
and result the loop left behind. -/
def postCheck (st : DriverState) : DriverState :=
  if maxAttempts ≤ st.attempts then
    { st with status := .failed, result := some (.error ("Max attempts reached")) }
  else st

/-- `process_quiz_chain` (main.py lines 135-234): run the loop from a fresh
`processing` state, then apply the post-loop check. -/
def process_quiz_chain {α : Type} (jload : List Char → Option α) (envs : Nat → IterEnv)
    (initial_url : String) : DriverState :=
  postCheck (runLoop jload envs maxAttempts initial_url
    { status := .processing, result := none, attempts := 0, renders := 0, submits := 0 })

theorem postCheck_attempts (st : DriverState) : (postCheck st).attempts = st.attempts := by
  unfold postCheck
  split
  · rfl
  · rfl

theorem runLoop_zero {α : Type} (jload : List Char → Option α) (envs : Nat → IterEnv)
    (url : String) (st : DriverState) : runLoop jload envs 0 url st = st := rfl

theorem runLoop_succ {α : Type} (jload : List Char → Option α) (envs : Nat → IterEnv)
    (fuel : Nat) (url : String) (st : DriverState) :
    runLoop jload envs (fuel + 1) url st
      = if url ≠ "" ∧ st.attempts < maxAttempts then
          (match loopStep jload (envs st.attempts) st with
           | .halt s => s
           | .next u s => runLoop jload envs fuel u s)
        else st := rfl

def stateOf : StepOut → DriverState
  | .halt s => s
  | .next _ s => s

theorem inspectVerdict_attempts (v : RespJson) (st : DriverState) :
    (stateOf (inspectVerdict v st)).attempts = st.attempts := by
  unfold inspectVerdict
  split
  · split <;> rfl
  · split <;> rfl

theorem loopStep_attempts {α : Type} (jload : List Char → Option α) (env : IterEnv)
    (st : DriverState) : (stateOf (loopStep jload env st)).attempts = st.attempts + 1 := by
  unfold loopStep
  split
  · rfl
  · split
    · rfl
    · split
      · rfl
      · split
        all_goals first
          | rfl
          | exact inspectVerdict_attempts _ _

/-- The choice of fuel in `runLoop` is irrelevant once it covers the remaining
attempt allowance: the `while` condition, not the fuel, stops the loop. -/
theorem runLoop_fuel {α : Type} (jload : List Char → Option α) (envs : Nat → IterEnv) :
    ∀ (fuel g : Nat) (url : String) (st : DriverState),
      maxAttempts - st.attempts ≤ fuel → maxAttempts - st.attempts ≤ g →
      runLoop jload envs fuel url st = runLoop jload envs g url st := by
  intro fuel
  induction fuel with
  | zero =>
    intro g url st hf _
    have ha : ¬ st.attempts < maxAttempts := by omega
    cases g with
    | zero => rfl
    | succ g =>
      rw [runLoop_zero, runLoop_succ, if_neg (fun h => ha h.2)]
  | succ fuel ih =>
    intro g url st hf hg
    by_cases hc : url ≠ "" ∧ st.attempts < maxAttempts
    · have h1 : 1 ≤ maxAttempts - st.attempts := by omega
      cases g with
      | zero => omega
      | succ g =>
        rw [runLoop_succ, runLoop_succ, if_pos hc, if_pos hc]
        cases hstep : loopStep jload (envs st.attempts) st with
        | halt s => rfl
        | next u s =>
          have ha : s.attempts = st.attempts + 1 := by
            have h2 := loopStep_attempts jload (envs st.attempts) st
            rw [hstep] at h2
            exact h2
          exact ih g u s (by omega) (by omega)
    · cases g with
      | zero => rw [runLoop_succ, if_neg hc, runLoop_zero]
      | succ g => rw [runLoop_succ, runLoop_succ, if_neg hc, if_neg hc]

theorem runLoop_attempts_le {α : Type} (jload : List Char → Option α) (envs : Nat → IterEnv) :
    ∀ (fuel : Nat) (url : String) (st : DriverState), st.attempts ≤ maxAttempts →
      (runLoop jload envs fuel url st).attempts ≤ maxAttempts := by
  intro fuel
  induction fuel with
  | zero => intro url st h; exact h
  | succ fuel ih =>
    intro url st h
    rw [runLoop_succ]
    split
    · next hc =>
      cases hstep : loopStep jload (envs st.attempts) st with
      | halt s =>
        have h2 := loopStep_attempts jload (envs st.attempts) st
        rw [hstep] at h2
        show s.attempts ≤ maxAttempts
        have h3 : s.attempts = st.attempts + 1 := h2
        omega
      | next u s =>
        have h2 := loopStep_attempts jload (envs st.attempts) st
        rw [hstep] at h2
        have h3 : s.attempts = st.attempts + 1 := h2
        show (runLoop jload envs fuel u s).attempts ≤ maxAttempts
        exact ih u s (by omega)
    · exact h

/-- C3: (1) for every environment, the Driver's loop body runs at most
`max_attempts` (10) times — the final attempt counter never exceeds it; (2) an
iteration whose top-of-iteration check sees more than the 3-minute budget
elapsed performs no render and no submit (the counters are unchanged), halts
the loop, and records status failed with the time-limit reason. -/
theorem claim_C3 : (∀ (α : Type) (jload : List Char → Option α) (envs : Nat → IterEnv)
      (url : String), (process_quiz_chain jload envs url).attempts ≤ maxAttempts) ∧
    (∀ (α : Type) (jload : List Char → Option α) (env : IterEnv) (st : DriverState),
      timeBudgetSec < env.elapsedSec →
      loopStep jload env st = .halt { st with
        attempts := st.attempts + 1,
        status := .failed,
        result := some (.error ("Time limit exceeded")) }) := by
  constructor
  · intro α jload envs url
    unfold process_quiz_chain
    rw [postCheck_attempts]
    exact runLoop_attempts_le jload envs maxAttempts url
      ⟨.processing, none, 0, 0, 0⟩ (Nat.zero_le _)
  · intro α jload env st h
    unfold loopStep
    rw [if_pos h]

def st0 : DriverState := ⟨.processing, none, 0, 0, 0⟩

def cHtml : String := "http://a/submit"

/-- A forced chain: every page renders to a page whose submit URL extraction
succeeds; the first nine verdicts are correct with a follow-up URL, the tenth
is correct with no follow-up (terminal success on the final allowed attempt). -/
def cEnvsC2 : Nat → IterEnv := fun k =>
  if k < 9 then ⟨0, .ok cHtml, "x", .ok ⟨true, some cHtml, none⟩⟩
  else ⟨0, .ok cHtml, "x", .ok ⟨true, none, none⟩⟩

theorem claim_C3_witness :
    (process_quiz_chain jNoneU cEnvsC2 cHtml).attempts ≤ maxAttempts ∧
    loopStep jNoneU ⟨200, .ok cHtml, "x", .ok ⟨true, none, none⟩⟩ st0
      = .halt ⟨.failed, some (.error ("Time limit exceeded")), 1, 0, 0⟩ := by
  constructor
  · exact claim_C3.1 Unit jNoneU cEnvsC2 cHtml
  · rw [claim_C3.2 Unit jNoneU ⟨200, .ok cHtml, "x", .ok ⟨true, none, none⟩⟩ st0
      (by norm_num [timeBudgetSec])]
    rfl

/-- C2: code bug — the per-task state machine is supposed to never leave a
terminal state, but the post-loop check `if attempt_count >= max_attempts`
(main.py lines 231-234) runs unconditionally: when a terminal verdict is
reached on the 10th (final) iteration, the loop itself ends with status
completed (success recorded), and the post-loop check then overwrites the
terminal state to failed / "Max attempts reached" — a completed → failed
transition, contradicting the claim (and the loop's own success logging). -/
theorem claim_C2_code_eval :
    runLoop jNoneU cEnvsC2 maxAttempts cHtml st0
      = ⟨.completed, some (.success ("All quizzes completed")), 10, 10, 10⟩ ∧
    process_quiz_chain jNoneU cEnvsC2 cHtml
      = ⟨.failed, some (.error ("Max attempts reached")), 10, 10, 10⟩ :=
  ⟨by decide, by decide⟩

/-- C5: when the verdict is not correct, the Driver continues the loop with the
verdict's next URL when one is (truthily) present, and otherwise halts with
status failed, recording the verdict's stated reason, or "Unknown error" when
no reason is present (main.py lines 208-219). -/
theorem claim_C5 : ∀ (v : RespJson) (st : DriverState), v.correct = false →
    inspectVerdict v st =
      (match truthyOpt v.url with
       | some u => StepOut.next u st
       | none => StepOut.halt { st with
           status := .failed,
           result := some (.error ((v.reason).getD ("Unknown error"))) }) := by
  intro v st hc
  unfold inspectVerdict
  rw [hc]
  simp

theorem claim_C5_witness :
    inspectVerdict ⟨false, none, some ("Wrong answer")⟩ st0
      = StepOut.halt ⟨.failed, some (.error ("Wrong answer")), 0, 0, 0⟩ ∧
    inspectVerdict ⟨false, some ("http://n"), none⟩ st0 = StepOut.next ("http://n") st0 ∧
    inspectVerdict ⟨false, none, none⟩ st0
      = StepOut.halt ⟨.failed, some (.error ("Unknown error")), 0, 0, 0⟩ := by
  refine ⟨?_, ?_, ?_⟩
  · rw [claim_C5 ⟨false, none, some ("Wrong answer")⟩ st0 rfl]
    rfl
  · rw [claim_C5 ⟨false, some ("http://n"), none⟩ st0 rfl]
    rfl
  · rw [claim_C5 ⟨false, none, none⟩ st0 rfl]
    rfl

/-- C7: every transport failure during submission — the POST raising (timeout,
connection error) or the response body failing to parse as JSON — is absorbed
inside `submit_answer`, which is total (never raises) and returns the
synthetic verdict `correct=false` with the failure description as the reason;
a successful JSON response is passed through untouched. The Driver's
exception branch is therefore reserved for render failures. -/
theorem claim_C7 :
    (∀ m : String, submit_answer (.exn m) = ⟨false, none, some m⟩) ∧
    (∀ m : String, submit_answer (.jsonExn m) = ⟨false, none, some m⟩) ∧
    (∀ j : RespJson, submit_answer (.ok j) = j) :=
  ⟨fun _ => rfl, fun _ => rfl, fun _ => rfl⟩

/-- C8: (1) when the iteration is within budget, the page renders, and
`extract_submit_url` finds nothing, the loop body halts in that same
iteration with status failed and "Could not find submit URL" as the task's
error result, having performed this iteration's render but no submit; (2) a
halting loop body ends the loop at once — no retry, no further iteration. -/
theorem claim_C8 :
    (∀ (α : Type) (jload : List Char → Option α) (env : IterEnv) (st : DriverState)
      (html : String),
      env.elapsedSec ≤ timeBudgetSec → env.render = .ok html →
      extract_submit_url html.data = none →
      loopStep jload env st = .halt { st with
        attempts := st.attempts + 1,
        renders := st.renders + 1,
        status := .failed,
        result := some (.error ("Could not find submit URL")) }) ∧
    (∀ (α : Type) (jload : List Char → Option α) (envs : Nat → IterEnv) (fuel : Nat)
      (url : String) (st s : DriverState),
      loopStep jload (envs st.attempts) st = .halt s →
      runLoop jload envs (fuel + 1) url st
        = if url ≠ "" ∧ st.attempts < maxAttempts then s else st) := by
  constructor
  · intro α jload env st html h1 h2 h3
    unfold loopStep
    rw [if_neg (not_lt.mpr h1), h2]
    show (match extract_submit_url html.data with
      | none => StepOut.halt { st with
          attempts := st.attempts + 1,
          renders := st.renders + 1,
          status := .failed,
          result := some (.error ("Could not find submit URL")) }
      | some _ =>
        match parse_answer jload (env.llm).data (extract_quiz_instruction html.data) with
        | PyAnswer.raised m =>
          StepOut.halt { st with
            attempts := st.attempts + 1,
            renders := st.renders + 1,
            status := .failed,
            result := some (.error (if m = "" then ("Unknown error occurred") else m)) }
        | _ =>
          inspectVerdict (submit_answer env.post)
            { st with
              attempts := st.attempts + 1,
              renders := st.renders + 1,
              submits := st.submits + 1 }) = _
    rw [h3]
  · intro α jload envs fuel url st s h
    rw [runLoop_succ]
    split
    · rw [h]
    · rfl

def envNoUrl : IterEnv := ⟨0, .ok ("<p>hi</p>"), "x", .ok ⟨true, none, none⟩⟩

theorem claim_C8_witness :
    loopStep jNoneU envNoUrl st0
      = .halt ⟨.failed, some (.error ("Could not find submit URL")), 1, 1, 0⟩ ∧
    runLoop jNoneU (fun _ => envNoUrl) maxAttempts ("http://start") st0
      = ⟨.failed, some (.error ("Could not find submit URL")), 1, 1, 0⟩ := by
  have h1 := claim_C8.1 Unit jNoneU envNoUrl st0 ("<p>hi</p>")
    (by norm_num [envNoUrl, timeBudgetSec]) rfl (by decide)
  constructor
  · rw [h1]
    rfl
  · have h2 := claim_C8.2 Unit jNoneU (fun _ => envNoUrl) 9 ("http://start") st0 _ h1
    rw [show maxAttempts = 9 + 1 from rfl, h2]
    rw [if_pos ⟨by decide, by decide⟩]
    rfl
